import Mathlib

/-!
Verification of the route-documentation generator in
`scripts/write-api-docs.js` (fxa-auth-server).

The script walks acorn ASTs (plain JavaScript values) with a generic
structural matcher (`find` / `match`) and extracts route descriptors.
We embed JavaScript values as the inductive type `JSVal` and translate
each function of the script.  JavaScript exceptions are modelled with
`Except JSError`: `JSError.diagnostic` is a `TypeError` raised by the
script's own `fail` helper (a structured, position-aware message) and
`JSError.native` is a TypeError raised by the runtime itself (for
example reading a property of `undefined`).
-/

/-- A JavaScript value as the script sees it: `undefined`, `null`,
booleans, numbers (only integers occur in the data handled here),
strings, arrays and plain objects (ordered field lists, matching
insertion order of `Object.keys`). -/
inductive JSVal where
  | vundefined : JSVal
  | vnull : JSVal
  | vbool : Bool → JSVal
  | vnum : Int → JSVal
  | vstr : String → JSVal
  | varr : List JSVal → JSVal
  | vobj : List (String × JSVal) → JSVal
deriving Repr

/-- `isObject` from the script: `node && typeof node === 'object'` —
true exactly for (non-null) objects and arrays. -/
def isObject : JSVal → Bool
  | .varr _ => true
  | .vobj _ => true
  | _ => false

/-- JavaScript truthiness, used by the script's `if (found)`,
`if (mode && ...)`, `if (! type)` tests. -/
def truthy : JSVal → Bool
  | .vundefined => false
  | .vnull => false
  | .vbool b => b
  | .vnum n => n != 0
  | .vstr s => s ≠ ""
  | .varr _ => true
  | .vobj _ => true

/-- JavaScript strict equality `===` restricted to the cases the script
can reach: scalars compare by tag and value; a comparison involving an
object or array on either side is `false` (two structural values
produced at different places in an AST are distinct references). -/
def scalarEq : JSVal → JSVal → Bool
  | .vundefined, .vundefined => true
  | .vnull, .vnull => true
  | .vbool a, .vbool b => a == b
  | .vnum a, .vnum b => a == b
  | .vstr a, .vstr b => a == b
  | _, _ => false

/-- The list of attribute values of a structural value, in key order:
`Object.keys(node).map(k => node[k])` for objects, the elements for
arrays, `[]` for scalars (the script only applies this under an
`isObject` guard). -/
def structVals : JSVal → List JSVal
  | .varr es => es
  | .vobj fs => fs.map Prod.snd
  | _ => []

mutual

/-- Structural size of a `JSVal`, used as recursion fuel (computable,
unlike the derived `SizeOf` of this nested inductive). -/
def jsize : JSVal → Nat
  | .vundefined => 1
  | .vnull => 1
  | .vbool _ => 1
  | .vnum _ => 1
  | .vstr _ => 1
  | .varr es => 1 + jsizeList es
  | .vobj fs => 1 + jsizeFields fs

/-- Size of a list of values. -/
def jsizeList : List JSVal → Nat
  | [] => 0
  | v :: vs => 1 + jsize v + jsizeList vs

/-- Size of a field list. -/
def jsizeFields : List (String × JSVal) → Nat
  | [] => 0
  | (_, v) :: fs => 1 + jsize v + jsizeFields fs

end

theorem jsize_pos (v : JSVal) : 0 < jsize v := by
  cases v <;> simp [jsize]

theorem jsize_lt_of_mem_list {v : JSVal} {l : List JSVal} (h : v ∈ l) :
    jsize v < 1 + jsizeList l := by
  induction l with
  | nil => simp at h
  | cons a l ih =>
    rcases List.mem_cons.mp h with rfl | h
    · simp [jsizeList]; omega
    · have := ih h
      simp [jsizeList]
      omega

theorem jsize_lt_of_mem_fields {v : JSVal} {fs : List (String × JSVal)}
    (h : v ∈ fs.map Prod.snd) : jsize v < 1 + jsizeFields fs := by
  induction fs with
  | nil => simp at h
  | cons a fs ih =>
    rcases List.mem_cons.mp h with hv | h
    · obtain ⟨k, w⟩ := a
      simp at hv
      subst hv
      simp [jsizeFields]; omega
    · have := ih h
      obtain ⟨k, w⟩ := a
      simp [jsizeFields]
      omega

theorem jsize_mem_structVals {v c : JSVal} (h : v ∈ structVals c) :
    jsize v < jsize c := by
  cases c with
  | varr es => simpa [jsize] using jsize_lt_of_mem_list h
  | vobj fs => simpa [jsize] using jsize_lt_of_mem_fields h
  | vundefined => simp [structVals] at h
  | vnull => simp [structVals] at h
  | vbool b => simp [structVals] at h
  | vnum n => simp [structVals] at h
  | vstr s => simp [structVals] at h

/-- Fuel-indexed translation of the script's `match`.  The fuel only
serves termination; `jmatch` below instantiates it with `jsize` of the
criteria, which `jmatchF_fuel_irrel` shows is always enough.

```js
function match (node, criteria) {
  if (! isObject(node)) { if (node === criteria) return true; return false }
  if (! isObject(criteria)) return false
  return Object.keys(criteria).every(criteriaKey =>
    Object.keys(node).some(nodeKey =>
      match(node[nodeKey], criteria[criteriaKey])))
}
``` -/
def jmatchF : Nat → JSVal → JSVal → Bool
  | 0, _, _ => false
  | fuel + 1, node, criteria =>
    if ! isObject node then scalarEq node criteria
    else if ! isObject criteria then false
    else (structVals criteria).all fun cv =>
      (structVals node).any fun nv => jmatchF fuel nv cv

theorem list_all_congr {α : Type} (l : List α) (f g : α → Bool)
    (h : ∀ x ∈ l, f x = g x) : l.all f = l.all g := by
  induction l with
  | nil => rfl
  | cons a l ih =>
    simp only [List.all_cons]
    rw [h a (by simp), ih (fun x hx => h x (by simp [hx]))]

theorem list_any_congr {α : Type} (l : List α) (f g : α → Bool)
    (h : ∀ x ∈ l, f x = g x) : l.any f = l.any g := by
  induction l with
  | nil => rfl
  | cons a l ih =>
    simp only [List.any_cons]
    rw [h a (by simp), ih (fun x hx => h x (by simp [hx]))]

theorem jmatchF_fuel_irrel :
    ∀ f g : Nat, ∀ n c : JSVal, jsize c ≤ f → jsize c ≤ g →
      jmatchF f n c = jmatchF g n c := by
  intro f
  induction f using Nat.strong_induction_on with
  | _ f ih =>
    intro g n c hf hg
    have hcpos := jsize_pos c
    match f, g with
    | 0, _ => omega
    | _ + 1, 0 => omega
    | f' + 1, g' + 1 =>
      simp only [jmatchF]
      by_cases hn : isObject n
      · by_cases hc : isObject c
        · simp only [hn, hc, Bool.not_true, Bool.false_eq_true, if_false]
          apply list_all_congr
          intro cv hcv
          apply list_any_congr
          intro nv _
          have hlt := jsize_mem_structVals hcv
          exact ih f' (by omega) g' nv cv (by omega) (by omega)
        · simp [hn, hc]
      · simp [hn]

/-- The script's `match(node, criteria)`. -/
def jmatch (node criteria : JSVal) : Bool :=
  jmatchF (jsize criteria) node criteria

/-- One-step unfolding of `jmatch`, in the exact shape of the source. -/
theorem jmatch_eq (node criteria : JSVal) :
    jmatch node criteria =
      (if ! isObject node then scalarEq node criteria
       else if ! isObject criteria then false
       else (structVals criteria).all fun cv =>
         (structVals node).any fun nv => jmatch nv cv) := by
  have hcpos := jsize_pos criteria
  unfold jmatch
  obtain ⟨s', hs⟩ : ∃ s', jsize criteria = s' + 1 := ⟨jsize criteria - 1, by omega⟩
  rw [hs]
  simp only [jmatchF]
  by_cases hn : isObject node
  · by_cases hc : isObject criteria
    · simp only [hn, hc, Bool.not_true, Bool.false_eq_true, if_false]
      apply list_all_congr
      intro cv hcv
      apply list_any_congr
      intro nv _
      have hlt : jsize cv < jsize criteria := jsize_mem_structVals hcv
      exact jmatchF_fuel_irrel s' (jsize cv) nv cv (by omega) (by omega)
    · simp [hn, hc]
  · simp [hn]

example : jmatch (.vstr "a") (.vstr "a") = true := by decide
example : jmatch (.vstr "a") (.vstr "b") = false := by decide
example : jmatch (.vobj [("type", .vstr "Property")]) (.vobj [("x", .vstr "Property")]) = true := by
  decide
example : jmatch (.vobj [("type", .vstr "Property")]) (.vobj [("x", .vstr "Q")]) = false := by
  decide

/-- Options record for `find`: `options.array` recurses into array
elements, `options.recursive` recurses into every child attribute.
The script's `find(node, criteria, {})` corresponds to `⟨false, false⟩`
(absent options are falsy). -/
structure FindOptions where
  array : Bool
  recursive : Bool
deriving Repr, DecidableEq

/-- Fuel-indexed translation of the script's `find`.

```js
function find (node, criteria, options) {
  options = options || {}
  if (match(node, criteria)) return [ node ]
  if (Array.isArray(node) && options.array)
    return node.reduce((results, property) =>
      results.concat(find(property, criteria, options)), [])
  if (isObject(node) && options.recursive)
    return Object.keys(node).reduce((results, key) =>
      results.concat(find(node[key], criteria, options)), [])
  return []
}
``` -/
def findF : Nat → JSVal → JSVal → FindOptions → List JSVal
  | 0, _, _, _ => []
  | fuel + 1, node, criteria, options =>
    if jmatch node criteria then [node]
    else if isArr node && options.array then
      (elemsOf node).foldl (fun results property =>
        results ++ findF fuel property criteria options) []
    else if isObject node && options.recursive then
      (structVals node).foldl (fun results v =>
        results ++ findF fuel v criteria options) []
    else []
where
  /-- `Array.isArray`. -/
  isArr : JSVal → Bool
    | .varr _ => true
    | _ => false
  /-- the elements of an array node (`[]` otherwise; only applied under
  the `Array.isArray` guard). -/
  elemsOf : JSVal → List JSVal
    | .varr es => es
    | _ => []

theorem list_foldl_append_congr {α β : Type} (l : List α) (f g : α → List β)
    (h : ∀ x ∈ l, f x = g x) :
    ∀ acc : List β, l.foldl (fun r x => r ++ f x) acc = l.foldl (fun r x => r ++ g x) acc := by
  induction l with
  | nil => intro acc; rfl
  | cons a l ih =>
    intro acc
    simp only [List.foldl_cons]
    rw [h a (by simp), ih (fun x hx => h x (by simp [hx]))]

theorem jsize_mem_elemsOf {v node : JSVal} (h : v ∈ findF.elemsOf node) :
    jsize v < jsize node := by
  cases node with
  | varr es => simpa [jsize] using jsize_lt_of_mem_list h
  | vundefined => simp [findF.elemsOf] at h
  | vnull => simp [findF.elemsOf] at h
  | vbool b => simp [findF.elemsOf] at h
  | vnum n => simp [findF.elemsOf] at h
  | vstr s => simp [findF.elemsOf] at h
  | vobj fs => simp [findF.elemsOf] at h

theorem findF_fuel_irrel :
    ∀ f g : Nat, ∀ n c : JSVal, ∀ o : FindOptions, jsize n ≤ f → jsize n ≤ g →
      findF f n c o = findF g n c o := by
  intro f
  induction f using Nat.strong_induction_on with
  | _ f ih =>
    intro g n c o hf hg
    have hnpos := jsize_pos n
    match f, g with
    | 0, _ => omega
    | _ + 1, 0 => omega
    | f' + 1, g' + 1 =>
      simp only [findF]
      by_cases hm : jmatch n c
      · simp [hm]
      · simp only [hm, Bool.false_eq_true, if_false]
        by_cases ha : findF.isArr n && o.array
        · simp only [ha, if_true]
          apply list_foldl_append_congr
          intro v hv
          have hlt := jsize_mem_elemsOf hv
          exact ih f' (by omega) g' v c o (by omega) (by omega)
        · simp only [ha, Bool.false_eq_true, if_false]
          by_cases hr : isObject n && o.recursive
          · simp only [hr, if_true]
            apply list_foldl_append_congr
            intro v hv
            have hlt := jsize_mem_structVals hv
            exact ih f' (by omega) g' v c o (by omega) (by omega)
          · simp [hr]

/-- The script's `find(node, criteria, options)`. -/
def find (node criteria : JSVal) (options : FindOptions) : List JSVal :=
  findF (jsize node) node criteria options

/-- One-step unfolding of `find`, in the exact shape of the source. -/
theorem find_eq (node criteria : JSVal) (options : FindOptions) :
    find node criteria options =
      (if jmatch node criteria then [node]
       else if findF.isArr node && options.array then
         (findF.elemsOf node).foldl (fun results property =>
           results ++ find property criteria options) []
       else if isObject node && options.recursive then
         (structVals node).foldl (fun results v =>
           results ++ find v criteria options) []
       else []) := by
  have hnpos := jsize_pos node
  unfold find
  obtain ⟨s', hs⟩ : ∃ s', jsize node = s' + 1 := ⟨jsize node - 1, by omega⟩
  rw [hs]
  simp only [findF]
  by_cases hm : jmatch node criteria
  · simp [hm]
  · simp only [hm, Bool.false_eq_true, if_false]
    by_cases ha : findF.isArr node && options.array
    · simp only [ha, if_true]
      apply list_foldl_append_congr
      intro v hv
      have hlt : jsize v < jsize node := jsize_mem_elemsOf hv
      exact findF_fuel_irrel s' (jsize v) v criteria options (by omega) (by omega)
    · simp only [ha, Bool.false_eq_true, if_false]
      by_cases hr : isObject node && options.recursive
      · simp only [hr, if_true]
        apply list_foldl_append_congr
        intro v hv
        have hlt : jsize v < jsize node := jsize_mem_structVals hv
        exact findF_fuel_irrel s' (jsize v) v criteria options (by omega) (by omega)
      · simp [hr]

example :
    find (.vobj [("type", .vstr "ReturnStatement")]) (.vobj [("type", .vstr "ReturnStatement")])
      ⟨false, false⟩ = [.vobj [("type", .vstr "ReturnStatement")]] := rfl
example :
    find (.varr [.vstr "x", .vobj [("type", .vstr "T")]]) (.vobj [("a", .vstr "T")])
      ⟨true, false⟩ = [.vobj [("type", .vstr "T")]] := rfl

/-- Errors thrown while extracting routes.  `diagnostic` is a
`TypeError` built by the script's own `fail` helper (carrying a
human-readable, position-aware message); `native` is a `TypeError`
raised by the JavaScript runtime itself, e.g. reading a property of
`undefined`.  Both unwind identically (a `catch` catches either). -/
inductive JSError where
  | diagnostic : String → JSError
  | native : String → JSError
deriving Repr, DecidableEq

mutual

/-- JavaScript `String(v)` coercion as used by the script (template
literals, regex `test`, `Array.prototype.join`). -/
def toJSString : JSVal → String
  | .vundefined => "undefined"
  | .vnull => "null"
  | .vbool b => if b then "true" else "false"
  | .vnum n => toString n
  | .vstr s => s
  | .varr es => jsJoinSep "," es
  | .vobj _ => "[object Object]"

/-- `Array.prototype.join(sep)`: elements are coerced with `String`,
except `null` and `undefined` which become the empty string. -/
def jsJoinSep : String → List JSVal → String
  | _, [] => ""
  | sep, e :: rest =>
    (match e with
      | .vundefined => ""
      | .vnull => ""
      | v => toJSString v)
    ++ (if rest.isEmpty then "" else sep) ++ jsJoinSep sep rest

end

example : toJSString (.vnum 17) = "17" := rfl
example : jsJoinSep ", " [.vstr "a", .vstr "b"] = "a, b" := rfl

/-- JavaScript member access `v.name`, which throws a native
`TypeError` when the receiver is `undefined` or `null`, yields the
field when present, and `undefined` otherwise (including on arrays and
primitives, whose named properties the script never hits). -/
def getFieldE (v : JSVal) (name : String) : Except JSError JSVal :=
  match v with
  | .vundefined => .error (.native ("Cannot read property '" ++ name ++ "' of undefined"))
  | .vnull => .error (.native ("Cannot read property '" ++ name ++ "' of null"))
  | .vobj fs => .ok ((fs.lookup name).getD .vundefined)
  | _ => .ok .vundefined

/-- The script's `fail(message, filePath, lineNumber)` (as reached from
the extraction helpers, which always pass a file path; `lineNumber` is
a JavaScript value because it is read straight off a `loc` node):

```js
function fail (message, filePath, lineNumber) {
  let debugFriendlyMessage
  if (filePath) {
    debugFriendlyMessage = `Error parsing "${filePath}"`
    if (lineNumber) debugFriendlyMessage += ` at line ${lineNumber}`
    debugFriendlyMessage += `:\n${message}`
  } else {
    debugFriendlyMessage = message
  }
  throw new TypeError(debugFriendlyMessage)
}
``` -/
def failErr (message : String) (filePath : String) (lineNumber : JSVal) : JSError :=
  .diagnostic
    (if filePath ≠ "" then
      "Error parsing \"" ++ filePath ++ "\""
        ++ (if truthy lineNumber then " at line " ++ toJSString lineNumber else "")
        ++ ":\n" ++ message
    else message)

/-- `FUNCTION_EXPRESSION_TYPES` from the script. -/
def FUNCTION_EXPRESSION_TYPES : List String := ["FunctionExpression", "ArrowFunctionExpression"]

/-- `ARRAY_TYPES` from the script. -/
def ARRAY_TYPES : List String := ["ArrayExpression"]

/-- `RETURN_TYPES` from the script. -/
def RETURN_TYPES : List String := ["ReturnStatement"]

/-- `OBJECT_TYPES` from the script. -/
def OBJECT_TYPES : List String := ["ObjectExpression"]

/-- `LITERAL_TYPES` from the script. -/
def LITERAL_TYPES : List String := ["Literal"]

/-- `IDENTIFIER_TYPES` from the script. -/
def IDENTIFIER_TYPES : List String := ["Identifier"]

/-- `types.has(nodeType)`: membership of the node's `type` tag in the
expected set; `false` when the tag is not a string. -/
def typeSetHas (types : List String) (v : JSVal) : Bool :=
  match v with
  | .vstr s => types.contains s
  | _ => false

/-- `Array.from(types).join(',')`. -/
def joinTypes (types : List String) : String :=
  String.intercalate "," types

/-- The script's `assertType(node, types, filePath)`:

```js
function assertType (node, types, filePath) {
  if (! node) fail(`Expected type [${...types}], found nothing`, filePath)
  const nodeType = node.type
  if (! types.has(nodeType)) {
    const line = node.loc.start.line
    const column = node.loc.start.column
    fail(`Expected type [${...types}], found "${nodeType}" at column "${column}"`, filePath, line)
  }
}
``` -/
def assertType (node : JSVal) (types : List String) (filePath : String) :
    Except JSError Unit := do
  if ! truthy node then
    throw (failErr ("Expected type [" ++ joinTypes types ++ "], found nothing") filePath .vundefined)
  let nodeType ← getFieldE node "type"
  if ! typeSetHas types nodeType then
    let loc ← getFieldE node "loc"
    let start ← getFieldE loc "start"
    let line ← getFieldE start "line"
    let column ← getFieldE start "column"
    throw (failErr
      ("Expected type [" ++ joinTypes types ++ "], found \"" ++ toJSString nodeType
        ++ "\" at column \"" ++ toJSString column ++ "\"")
      filePath line)
  return ()

example :
    assertType (.vobj [("type", .vstr "Literal")]) LITERAL_TYPES "f.js" = .ok () := rfl
example :
    assertType .vundefined RETURN_TYPES "f.js"
      = .error (failErr "Expected type [ReturnStatement], found nothing" "f.js" .vundefined) := rfl

/-- Prefix test on character lists (first argument is the candidate
lead).  Used to model the anchored regexes of the script. -/
def listLead : List Char → List Char → Bool
  | [], _ => true
  | _ :: _, [] => false
  | c :: cs, d :: ds => c == d && listLead cs ds

/-- `re.test(String(v))` for an anchored regex `/^lead/`: does the
string coercion of `v` start with `lead`? -/
def jsTestLead (lead : String) (v : JSVal) : Bool :=
  listLead lead.data (toJSString v).data

/-- The script's `marshallStrategy(strategy)`:

```js
function marshallStrategy (strategy) {
  if (SESSION_TOKEN_STRATEGY.test(strategy)) return 'sessionToken'
  if (KEY_FETCH_TOKEN_STRATEGY.test(strategy)) return 'keyFetchToken'
  return strategy
}
```
with `SESSION_TOKEN_STRATEGY = /^sessionToken/` and
`KEY_FETCH_TOKEN_STRATEGY = /^keyFetchToken/`. -/
def marshallStrategy (strategy : JSVal) : JSVal :=
  if jsTestLead "sessionToken" strategy then .vstr "sessionToken"
  else if jsTestLead "keyFetchToken" strategy then .vstr "keyFetchToken"
  else strategy

example : marshallStrategy (.vstr "sessionTokenA") = .vstr "sessionToken" := rfl
example : marshallStrategy (.vstr "basicAuth") = .vstr "basicAuth" := rfl

/-- The dedup `reduce` from `findRouteAuthentication`:

```js
.reduce((deduped, strategy) => {
  if (deduped.indexOf(strategy) === -1) deduped.push(strategy)
  return deduped
}, [])
```
`indexOf` compares with `===`, i.e. `scalarEq` here (the marshalled
values are literal scalars; distinct object references are unequal). -/
def jsDedupe (l : List JSVal) : List JSVal :=
  l.foldl
    (fun deduped strategy =>
      if deduped.any fun x => scalarEq x strategy then deduped else deduped ++ [strategy])
    []

example : jsDedupe [.vstr "a", .vstr "b", .vstr "a"] = [.vstr "a", .vstr "b"] := rfl

/-- The criteria object `findProperty` builds for a property named
`key`:
`{type: 'Property', kind: 'init', key: {type: 'Identifier', name: key}}`. -/
def propertyCriteria (key : String) : JSVal :=
  .vobj [("type", .vstr "Property"), ("kind", .vstr "init"),
         ("key", .vobj [("type", .vstr "Identifier"), ("name", .vstr key)])]

/-- The script's `findProperty(node, key, types, filePath)`:

```js
function findProperty (node, key, types, filePath) {
  const found = find(node.properties, {
    type: 'Property', kind: 'init',
    key: { type: 'Identifier', name: key }
  }, { array: true })[0]
  if (found) {
    assertType(found.value, types, filePath)
    return found.value
  }
}
```
Note the `[0]`: only the first match is taken, with no check that the
match was unique.  A fall-through (no match) returns `undefined`. -/
def findProperty (node : JSVal) (key : String) (types : List String)
    (filePath : String) : Except JSError JSVal := do
  let props ← getFieldE node "properties"
  let found := (find props (propertyCriteria key) ⟨true, false⟩).headD .vundefined
  if truthy found then
    let v ← getFieldE found "value"
    assertType v types filePath
    return v
  else
    return .vundefined

/-- The criteria `{type: 'ReturnStatement'}`. -/
def returnCriteria : JSVal := .vobj [("type", .vstr "ReturnStatement")]

/-- The criteria
`{type: 'VariableDeclarator', id: {type: 'Identifier', name: name}}`
(where `name` is read off the returned identifier node). -/
def declCriteria (name : JSVal) : JSVal :=
  .vobj [("type", .vstr "VariableDeclarator"),
         ("id", .vobj [("type", .vstr "Identifier"), ("name", name)])]

/-- The script's `findReturnedData(functionNode, filePath)`:

```js
function findReturnedData (functionNode, filePath) {
  let returnedData
  if (functionNode.type === 'BlockStatement') {
    const returned = find(functionNode.body, { type: 'ReturnStatement' }, { array: true })
    if (returned.length !== 1)
      fail(`Expected 1 return statement, found ${returned.length}`, filePath)
    returnedData = returned[0].argument
  } else {
    assertType(returnedData, RETURN_TYPES, filePath)   // NB: returnedData is still undefined here
    returnedData = functionNode.argument
  }
  if (returnedData.type === 'Identifier') {
    const routeDefinitions = find(functionNode, {
      type: 'VariableDeclarator',
      id: { type: 'Identifier', name: returnedData.name }
    }, { recursive: true })
    if (routeDefinitions.length !== 1)
      fail(`Expected 1 set of route definitions, found ${routeDefinitions.length}`, filePath)
    returnedData = routeDefinitions[0].init
  }
  assertType(returnedData, ARRAY_TYPES, filePath)
  return returnedData.elements
}
```
The `assertType(returnedData, ...)` in the `else` branch reads the
still-`undefined` local, so that branch always throws before reaching
`functionNode.argument`. -/
def findReturnedData (functionNode : JSVal) (filePath : String) :
    Except JSError JSVal := do
  let ft ← getFieldE functionNode "type"
  let returnedData0 ←
    if scalarEq ft (.vstr "BlockStatement") then do
      let body ← getFieldE functionNode "body"
      let returned := find body returnCriteria ⟨true, false⟩
      if returned.length ≠ 1 then
        throw (failErr ("Expected 1 return statement, found " ++ toString returned.length)
          filePath .vundefined)
      getFieldE (returned.headD .vundefined) "argument"
    else do
      assertType .vundefined RETURN_TYPES filePath
      getFieldE functionNode "argument"
  let rt ← getFieldE returnedData0 "type"
  let returnedData1 ←
    if scalarEq rt (.vstr "Identifier") then do
      let nm ← getFieldE returnedData0 "name"
      let routeDefinitions := find functionNode (declCriteria nm) ⟨false, true⟩
      if routeDefinitions.length ≠ 1 then
        throw (failErr
          ("Expected 1 set of route definitions, found " ++ toString routeDefinitions.length)
          filePath .vundefined)
      getFieldE (routeDefinitions.headD .vundefined) "init"
    else
      pure returnedData0
  assertType returnedData1 ARRAY_TYPES filePath
  getFieldE returnedData1 "elements"

/-- `findRoutePath(route, filePath)`:
`findProperty(route, 'path', LITERAL_TYPES, filePath).value`. -/
def findRoutePath (route : JSVal) (filePath : String) : Except JSError JSVal := do
  let p ← findProperty route "path" LITERAL_TYPES filePath
  getFieldE p "value"

/-- `findRouteMethod(route, filePath)`:
`findProperty(route, 'method', LITERAL_TYPES, filePath).value`. -/
def findRouteMethod (route : JSVal) (filePath : String) : Except JSError JSVal := do
  let p ← findProperty route "method" LITERAL_TYPES filePath
  getFieldE p "value"

/-- `findRouteConfig(route, filePath)`:
`findProperty(route, 'config', OBJECT_TYPES, filePath)`. -/
def findRouteConfig (route : JSVal) (filePath : String) : Except JSError JSVal :=
  findProperty route "config" OBJECT_TYPES filePath

/-- `findRouteValidation(routeConfig, filePath)`. -/
def findRouteValidation (routeConfig : JSVal) (filePath : String) : Except JSError JSVal :=
  findProperty routeConfig "validate" OBJECT_TYPES filePath

/-- `findRouteResponse(routeConfig, filePath)`. -/
def findRouteResponse (routeConfig : JSVal) (filePath : String) : Except JSError JSVal :=
  findProperty routeConfig "response" OBJECT_TYPES filePath

/-- The `strategies.elements.map(strategy => { assertType(...); return
marshallStrategy(strategy.value) })` step: per-element type assertion,
then marshalling, left to right (the first assertion failure
unwinds). -/
def marshallElems (filePath : String) : List JSVal → Except JSError (List JSVal)
  | [] => .ok []
  | strategy :: rest => do
    assertType strategy LITERAL_TYPES filePath
    let sv ← getFieldE strategy "value"
    let others ← marshallElems filePath rest
    return marshallStrategy sv :: others

/-- The script's `findRouteAuthentication(routeConfig, filePath)`:

```js
function findRouteAuthentication (routeConfig, filePath) {
  const routeAuthentication = findProperty(routeConfig, 'auth', OBJECT_TYPES, filePath)
  if (routeAuthentication) {
    let optional = false, type
    const mode = findProperty(routeAuthentication, 'mode', LITERAL_TYPES, filePath)
    if (mode && (mode.value === 'try' || mode.value === 'optional')) optional = true
    const strategies = findProperty(routeAuthentication, 'strategies', ARRAY_TYPES, filePath)
    if (strategies) {
      type = strategies.elements.map(strategy => {
        assertType(strategy, LITERAL_TYPES, filePath)
        return marshallStrategy(strategy.value)
      }).reduce((deduped, strategy) => { ... }, []).join(', ')
    } else {
      const strategy = findProperty(routeAuthentication, 'strategy', LITERAL_TYPES, filePath)
      if (strategy) type = marshallStrategy(strategy.value)
    }
    if (! type)
      fail('Missing authentication strategy', filePath, routeAuthentication.loc.start.line)
    return { optional, type }
  }
}
```
When `strategies.elements` is not an array value, calling `.map` on it
raises a native TypeError. -/
def findRouteAuthentication (routeConfig : JSVal) (filePath : String) :
    Except JSError JSVal := do
  let routeAuthentication ← findProperty routeConfig "auth" OBJECT_TYPES filePath
  if truthy routeAuthentication then
    let mode ← findProperty routeAuthentication "mode" LITERAL_TYPES filePath
    let optional ←
      if truthy mode then do
        let mv ← getFieldE mode "value"
        pure (scalarEq mv (.vstr "try") || scalarEq mv (.vstr "optional"))
      else
        pure false
    let strategies ← findProperty routeAuthentication "strategies" ARRAY_TYPES filePath
    let type0 ←
      if truthy strategies then do
        let elems ← getFieldE strategies "elements"
        match elems with
        | .varr es => do
          let marshalled ← marshallElems filePath es
          pure (JSVal.vstr (jsJoinSep ", " (jsDedupe marshalled)))
        | .vundefined => throw (.native "Cannot read property 'map' of undefined")
        | .vnull => throw (.native "Cannot read property 'map' of null")
        | _ => throw (.native "strategies.elements.map is not a function")
      else do
        let strategy ← findProperty routeAuthentication "strategy" LITERAL_TYPES filePath
        if truthy strategy then do
          let sv ← getFieldE strategy "value"
          pure (marshallStrategy sv)
        else
          pure JSVal.vundefined
    if ! truthy type0 then
      let loc ← getFieldE routeAuthentication "loc"
      let start ← getFieldE loc "start"
      let line ← getFieldE start "line"
      throw (failErr "Missing authentication strategy" filePath line)
    return .vobj [("optional", .vbool optional), ("type", type0)]
  else
    return .vundefined

/-- The script's `findRouteHandler(route, filePath)`:

```js
function findRouteHandler (route, filePath) {
  try {
    return findProperty(route, 'handler', FUNCTION_EXPRESSION_TYPES, filePath).value
  } catch (error) {
    const handlerName = findProperty(route, 'handler', IDENTIFIER_TYPES, filePath).name
  }
}
```
The `catch` catches any error from the `try` body; the `catch` body
binds `handlerName` and then falls off the end, so the function returns
`undefined` on that path (errors raised inside the `catch` body
propagate). -/
def findRouteHandler (route : JSVal) (filePath : String) : Except JSError JSVal :=
  match (do
    let p ← findProperty route "handler" FUNCTION_EXPRESSION_TYPES filePath
    getFieldE p "value" : Except JSError JSVal) with
  | .ok v => .ok v
  | .error _ => do
    let p ← findProperty route "handler" IDENTIFIER_TYPES filePath
    let _handlerName ← getFieldE p "name"
    return .vundefined

/-- A `loc` source-position object `{start: {line, column}, end: {line,
column}}` as produced by acorn with `locations: true`. -/
def mkLoc (l1 c1 l2 c2 : Int) : JSVal :=
  .vobj [("start", .vobj [("line", .vnum l1), ("column", .vnum c1)]),
         ("end", .vobj [("line", .vnum l2), ("column", .vnum c2)])]

/-- A fixed position for nodes whose location is irrelevant to a
claim. -/
def demoLoc : JSVal := mkLoc 1 0 1 0

/-- An `Identifier` node. -/
def mkIdent (name : String) : JSVal :=
  .vobj [("type", .vstr "Identifier"), ("name", .vstr name), ("loc", demoLoc)]

/-- A `Literal` node with the given literal value. -/
def mkLiteral (v : JSVal) : JSVal :=
  .vobj [("type", .vstr "Literal"), ("value", v), ("loc", demoLoc)]

/-- A `Property` node (of an object expression) with an identifier key.
Only the attributes the script reads or matches on are modelled:
`type`, `key`, `value`, `kind`, `loc` (acorn's boolean flags `method`,
`shorthand`, `computed` can never satisfy a string or object criterion
of the matcher, so they are omitted). -/
def mkProp (name : String) (value : JSVal) : JSVal :=
  .vobj [("type", .vstr "Property"), ("key", mkIdent name), ("value", value),
         ("kind", .vstr "init"), ("loc", demoLoc)]

/-- An `ObjectExpression` node with the given properties (raw property
value nodes) and location. -/
def mkObjNode (props : List (String × JSVal)) (loc : JSVal) : JSVal :=
  .vobj [("type", .vstr "ObjectExpression"),
         ("properties", .varr (props.map fun p => mkProp p.1 p.2)),
         ("loc", loc)]

/-- An `ArrayExpression` node. -/
def mkArrayExpr (elems : List JSVal) : JSVal :=
  .vobj [("type", .vstr "ArrayExpression"), ("elements", .varr elems), ("loc", demoLoc)]

/-- A `ReturnStatement` node. -/
def mkReturnStmt (arg : JSVal) : JSVal :=
  .vobj [("type", .vstr "ReturnStatement"), ("argument", arg), ("loc", demoLoc)]

/-- A `BlockStatement` node. -/
def mkBlock (stmts : List JSVal) : JSVal :=
  .vobj [("type", .vstr "BlockStatement"), ("body", .varr stmts), ("loc", demoLoc)]

/-- A `VariableDeclarator` node (`name = init`). -/
def mkVarDeclarator (name : String) (init0 : JSVal) : JSVal :=
  .vobj [("type", .vstr "VariableDeclarator"), ("id", mkIdent name), ("init", init0),
         ("loc", demoLoc)]

/-- A `VariableDeclaration` statement (`const ...`). -/
def mkVarDeclaration (decls : List JSVal) : JSVal :=
  .vobj [("type", .vstr "VariableDeclaration"), ("declarations", .varr decls),
         ("kind", .vstr "const"), ("loc", demoLoc)]

/-- A `FunctionExpression` node with an empty body (the script never
looks inside a handler function). -/
def mkFuncExpr : JSVal :=
  .vobj [("type", .vstr "FunctionExpression"), ("params", .varr []),
         ("body", mkBlock []), ("loc", demoLoc)]

example :
    findProperty (mkObjNode [("path", mkLiteral (.vstr "/v0/account"))] demoLoc)
      "path" LITERAL_TYPES "f.js" = .ok (mkLiteral (.vstr "/v0/account")) := rfl

example :
    findRouteAuthentication
      (mkObjNode
        [("auth", mkObjNode
          [("mode", mkLiteral (.vstr "optional")),
           ("strategies", mkArrayExpr
             [mkLiteral (.vstr "sessionTokenA"), mkLiteral (.vstr "sessionTokenB")])]
          demoLoc)]
        demoLoc)
      "routes.js"
    = .ok (.vobj [("optional", .vbool true), ("type", .vstr "sessionToken")]) := rfl

/-- The nested criteria `{type: 'Identifier', name: key}` used by
`propertyCriteria`. -/
def keyCriteria (key : String) : JSVal :=
  .vobj [("type", .vstr "Identifier"), ("name", .vstr key)]

theorem propertyCriteria_unfold (key : String) :
    propertyCriteria key
      = .vobj [("type", .vstr "Property"), ("kind", .vstr "init"),
               ("key", keyCriteria key)] := rfl

theorem jmatch_vstr_crit (v : JSVal) (s : String) :
    jmatch v (.vstr s) = scalarEq v (.vstr s) := by
  rw [jmatch_eq]
  cases v <;> simp [isObject, scalarEq]

theorem scalarEq_obj_left (fs : List (String × JSVal)) (c : JSVal) :
    scalarEq (.vobj fs) c = false := by
  cases c <;> simp [scalarEq]

theorem scalarEq_obj_right (n : JSVal) (fs : List (String × JSVal)) :
    scalarEq n (.vobj fs) = false := by
  cases n <;> simp [scalarEq]

theorem jmatch_vstr_keyCriteria (s : String) (k : String) :
    jmatch (.vstr s) (keyCriteria k) = false := by
  rw [jmatch_eq]
  simp [isObject, keyCriteria, scalarEq_obj_right]

theorem jmatch_mkIdent_keyCriteria (n k : String) :
    jmatch (mkIdent n) (keyCriteria k) = (("Identifier" == k) || (n == k)) := by
  rw [jmatch_eq]
  simp only [mkIdent, keyCriteria, demoLoc, mkLoc, isObject, structVals, List.map,
    Bool.not_true, Bool.false_eq_true, if_false, List.all_cons, List.all_nil,
    List.any_cons, List.any_nil, jmatch_vstr_crit, scalarEq]
  simp

theorem jmatch_mkLoc_keyCriteria (a b c d : Int) (k : String) :
    jmatch (mkLoc a b c d) (keyCriteria k) = false := by
  rw [jmatch_eq]
  simp only [mkLoc, keyCriteria, isObject, structVals, List.map,
    Bool.not_true, Bool.false_eq_true, if_false, List.all_cons, List.all_nil,
    List.any_cons, List.any_nil]
  rw [jmatch_eq, jmatch_eq]
  simp [isObject, scalarEq_obj_left]

theorem jmatch_mkLiteral_keyCriteria (v : JSVal) (k : String) :
    jmatch (mkLiteral v) (keyCriteria k)
      = (scalarEq v (.vstr "Identifier") && (("Literal" == k) || scalarEq v (.vstr k))) := by
  rw [jmatch_eq]
  simp only [mkLiteral, keyCriteria, demoLoc, mkLoc, isObject, structVals, List.map,
    Bool.not_true, Bool.false_eq_true, if_false, List.all_cons, List.all_nil,
    List.any_cons, List.any_nil, jmatch_vstr_crit, jmatch_mkLoc_keyCriteria, scalarEq]
  simp [Bool.or_false, Bool.and_true]

theorem jmatch_mkProp_propertyCriteria (n : String) (v : JSVal) (k : String) :
    jmatch (mkProp n v) (propertyCriteria k)
      = ((("Identifier" == k) || (n == k)) || jmatch v (keyCriteria k)) := by
  rw [jmatch_eq]
  simp only [mkProp, propertyCriteria_unfold, isObject, structVals, List.map,
    Bool.not_true, Bool.false_eq_true, if_false, List.all_cons, List.all_nil,
    List.any_cons, List.any_nil, jmatch_vstr_crit, jmatch_vstr_keyCriteria,
    jmatch_mkIdent_keyCriteria, jmatch_mkLoc_keyCriteria, demoLoc, scalarEq]
  simp

theorem foldl_append_eq_flatMap {α β : Type} (l : List α) (f : α → List β) :
    ∀ acc : List β, l.foldl (fun r x => r ++ f x) acc = acc ++ l.flatMap f := by
  induction l with
  | nil => intro acc; simp
  | cons a l ih => intro acc; simp [ih]

theorem jmatch_mkProp_vstr (n : String) (v : JSVal) (s : String) :
    jmatch (mkProp n v) (.vstr s) = false := by
  rw [jmatch_vstr_crit]
  simp [mkProp, scalarEq]

theorem jmatch_varr_mkProps (props : List (String × JSVal)) (k : String) :
    jmatch (.varr (props.map fun p => mkProp p.1 p.2)) (propertyCriteria k) = false := by
  rw [jmatch_eq]
  simp only [isObject, propertyCriteria_unfold, structVals, List.map,
    Bool.not_true, Bool.false_eq_true, if_false, List.all_cons]
  have : ((props.map fun p => mkProp p.1 p.2).any fun nv => jmatch nv (.vstr "Property"))
      = false := by
    rw [List.any_eq_false]
    intro x hx
    rw [List.mem_map] at hx
    obtain ⟨p, _, rfl⟩ := hx
    simp [jmatch_mkProp_vstr]
  simp [this]

theorem find_mkProp_single (n : String) (v : JSVal) (k : String)
    (hk : ("Identifier" == k) = false) (hb : jmatch v (keyCriteria k) = false) :
    find (mkProp n v) (propertyCriteria k) ⟨true, false⟩
      = if (n == k) then [mkProp n v] else [] := by
  rw [find_eq]
  rw [jmatch_mkProp_propertyCriteria]
  rw [hk, hb]
  simp only [Bool.false_or, Bool.or_false]
  cases hnk : (n == k) with
  | true => simp
  | false => simp [mkProp, findF.isArr, isObject]

theorem find_mkProps (props : List (String × JSVal)) (k : String)
    (hk : ("Identifier" == k) = false)
    (hb : ∀ p ∈ props, jmatch p.2 (keyCriteria k) = false) :
    find (.varr (props.map fun p => mkProp p.1 p.2)) (propertyCriteria k) ⟨true, false⟩
      = (props.filter fun p => p.1 == k).map (fun p => mkProp p.1 p.2) := by
  rw [find_eq, jmatch_varr_mkProps]
  simp only [Bool.false_eq_true, if_false, findF.isArr, findF.elemsOf, Bool.true_and,
    if_true]
  rw [foldl_append_eq_flatMap]
  simp only [List.nil_append]
  induction props with
  | nil => simp
  | cons p props ih =>
    simp only [List.map_cons, List.flatMap_cons, List.filter_cons]
    rw [find_mkProp_single p.1 p.2 k hk (hb p (by simp))]
    rw [ih (fun q hq => hb q (by simp [hq]))]
    cases hpk : (p.1 == k) with
    | true => simp
    | false => simp

@[simp] theorem except_ok_bind {α β : Type} (a : α) (f : α → Except JSError β) :
    (Except.ok a >>= f) = f a := rfl

@[simp] theorem except_error_bind {α β : Type} (e : JSError) (f : α → Except JSError β) :
    ((Except.error e : Except JSError α) >>= f) = Except.error e := rfl

@[simp] theorem except_pure_eq_ok {α : Type} (a : α) :
    (pure a : Except JSError α) = Except.ok a := rfl

@[simp] theorem except_throw_eq_error {α : Type} (e : JSError) :
    (throw e : Except JSError α) = Except.error e := rfl

theorem findProperty_mkObj (props : List (String × JSVal)) (loc : JSVal) (k : String)
    (types : List String) (fp : String)
    (hk : ("Identifier" == k) = false)
    (hb : ∀ p ∈ props, jmatch p.2 (keyCriteria k) = false) :
    findProperty (mkObjNode props loc) k types fp
      = match (props.filter fun p => p.1 == k).head? with
        | none => .ok .vundefined
        | some p => assertType p.2 types fp >>= fun _ => pure p.2 := by
  unfold findProperty
  have hprops : getFieldE (mkObjNode props loc) "properties"
      = .ok (.varr (props.map fun p => mkProp p.1 p.2)) := by
    simp [mkObjNode, getFieldE, List.lookup]
  rw [hprops]
  simp only [except_ok_bind]
  rw [find_mkProps props k hk hb]
  cases hfilter : props.filter fun p => p.1 == k with
  | nil => simp [truthy]
  | cons q qs =>
    simp only [List.map_cons, List.headD_cons, List.head?_cons]
    have htr : truthy (mkProp q.1 q.2) = true := by simp [mkProp, truthy]
    rw [htr]
    have hval : getFieldE (mkProp q.1 q.2) "value" = .ok q.2 := by
      simp [mkProp, getFieldE, List.lookup]
    simp [hval]

theorem scalarEq_struct_right (n c : JSVal) (h : isObject c = true) :
    scalarEq n c = false := by
  cases c with
  | varr es => cases n <;> simp [scalarEq]
  | vobj fs => cases n <;> simp [scalarEq]
  | vundefined => simp [isObject] at h
  | vnull => simp [isObject] at h
  | vbool b => simp [isObject] at h
  | vnum m => simp [isObject] at h
  | vstr s => simp [isObject] at h

/-- The matching relation exactly as the specification phrases it: a
scalar criteria matches only an identical scalar node; a structural
criteria requires a structural node such that every criteria attribute
value is recursively matched by some attribute value of the node. -/
def matchClaim (n c : JSVal) : Prop :=
  if isObject c then
    isObject n = true ∧ ∀ cv ∈ structVals c, ∃ nv ∈ structVals n, matchClaim nv cv
  else
    isObject n = false ∧ scalarEq n c = true
termination_by jsize c
decreasing_by exact jsize_mem_structVals (by assumption)

/-- Claim C1: for every node `n` and criteria `c`, if `c` is scalar then
`match(n, c)` holds iff `n` is scalar and strictly equal to `c`; if `c`
is structural then `match(n, c)` holds iff `n` is structural and every
key of `c` is matched by some key of `n` whose value recursively
matches that criterion value. -/
theorem C1_match_semantics (n c : JSVal) : jmatch n c = true ↔ matchClaim n c := by
  have main : ∀ s : Nat, ∀ c n : JSVal, jsize c ≤ s →
      (jmatch n c = true ↔ matchClaim n c) := by
    intro s
    induction s using Nat.strong_induction_on with
    | _ s ih =>
      intro c n hs
      have hcpos := jsize_pos c
      rw [jmatch_eq, matchClaim]
      by_cases hn : isObject n
      · by_cases hc : isObject c
        · simp only [hn, hc, Bool.not_true, Bool.false_eq_true, if_false, if_true,
            List.all_eq_true, List.any_eq_true, true_and]
          constructor
          · intro h cv hcv
            obtain ⟨nv, hnv, hm⟩ := h cv hcv
            have hlt := jsize_mem_structVals hcv
            exact ⟨nv, hnv, (ih (s - 1) (by omega) cv nv (by omega)).mp hm⟩
          · intro h cv hcv
            obtain ⟨nv, hnv, hm⟩ := h cv hcv
            have hlt := jsize_mem_structVals hcv
            exact ⟨nv, hnv, (ih (s - 1) (by omega) cv nv (by omega)).mpr hm⟩
        · simp [hn, hc]
      · by_cases hc : isObject c
        · simp [hn, hc, scalarEq_struct_right n c hc]
        · simp [hn, hc]
  exact main (jsize c) c n le_rfl

/-- Claim C7: `find(n, c, {})` — with neither the `array` nor the
`recursive` option — returns `[n]` when `match(n, c)` succeeds and `[]`
otherwise. -/
theorem C7_find_no_options (n c : JSVal) :
    find n c ⟨false, false⟩ = if jmatch n c then [n] else [] := by
  rw [find_eq]
  cases hm : jmatch n c
  · simp
  · simp

/-- First-occurrence deduplication, as the specification words it:
keep each name's first occurrence, in order. -/
def firstDedup : List String → List String
  | [] => []
  | s :: rest => s :: firstDedup (rest.filter fun t => ! (t == s))
termination_by l => l.length
decreasing_by
  have := List.length_filter_le (fun t => ! (t == s)) rest
  simp only [List.length_cons]
  omega

/-- Joining with a `", "` separator, as the specification words it. -/
def joinComma : List String → String
  | [] => ""
  | [s] => s
  | s :: rest => s ++ ", " ++ joinComma rest

theorem any_map_vstr (acc : List String) (s : String) :
    ((acc.map JSVal.vstr).any fun x => scalarEq x (.vstr s)) = acc.any fun t => t == s := by
  induction acc with
  | nil => rfl
  | cons a acc ih =>
    simp only [List.map_cons, List.any_cons, ih]
    rfl

theorem string_beq_comm (s x : String) : (s == x) = (x == s) := by
  by_cases h : s = x
  · subst h; rfl
  · rw [beq_eq_false_iff_ne.mpr h, beq_eq_false_iff_ne.mpr (Ne.symm h)]

theorem jsDedupe_map_vstr (l : List String) : ∀ acc : List String,
    ((l.map JSVal.vstr).foldl
      (fun deduped strategy =>
        if deduped.any fun x => scalarEq x strategy then deduped else deduped ++ [strategy])
      (acc.map .vstr))
    = (l.foldl (fun d s => if d.any fun t => t == s then d else d ++ [s]) acc).map .vstr := by
  induction l with
  | nil => intro acc; simp
  | cons s t ih =>
    intro acc
    simp only [List.map_cons, List.foldl_cons, any_map_vstr]
    cases h : acc.any fun x => x == s with
    | true => simp only [h, if_true]; exact ih acc
    | false =>
      simp only [h, Bool.false_eq_true, if_false]
      have : (acc.map JSVal.vstr) ++ [JSVal.vstr s] = (acc ++ [s]).map .vstr := by
        simp
      rw [this, ih (acc ++ [s])]

theorem stringDedup_eq_firstDedup :
    ∀ (l acc : List String),
      l.foldl (fun d s => if d.any fun t => t == s then d else d ++ [s]) acc
        = acc ++ firstDedup (l.filter fun s => ! acc.any fun t => t == s) := by
  intro l
  induction l with
  | nil => intro acc; simp [firstDedup]
  | cons s t ih =>
    intro acc
    simp only [List.foldl_cons, List.filter_cons]
    cases h : acc.any fun x => x == s with
    | true => simp only [h, if_true, Bool.not_true, Bool.false_eq_true, if_false]; exact ih acc
    | false =>
      simp only [h, Bool.false_eq_true, if_false, Bool.not_false, if_true]
      rw [ih (acc ++ [s])]
      rw [firstDedup]
      have hfilter :
          (t.filter fun x => ! (acc ++ [s]).any fun q => q == x)
            = ((t.filter fun x => ! acc.any fun q => q == x).filter fun x => ! (x == s)) := by
        rw [List.filter_filter]
        apply List.filter_congr
        intro x _
        simp only [List.any_append, List.any_cons, List.any_nil, Bool.or_false,
          Bool.not_or, Bool.and_comm]
        rw [string_beq_comm s x]
      rw [hfilter]
      simp

theorem jsDedupe_eq_firstDedup (l : List String) :
    jsDedupe (l.map .vstr) = (firstDedup l).map .vstr := by
  unfold jsDedupe
  have h0 := jsDedupe_map_vstr l []
  simp only [List.map_nil] at h0
  rw [h0, stringDedup_eq_firstDedup l []]
  simp

theorem jsJoinSep_cons_vstr (sep s : String) (rest : List JSVal) :
    jsJoinSep sep (.vstr s :: rest)
      = s ++ (if rest.isEmpty then "" else sep) ++ jsJoinSep sep rest := rfl

theorem jsJoinSep_comma (l : List String) :
    jsJoinSep ", " (l.map .vstr) = joinComma l := by
  induction l with
  | nil => rfl
  | cons s rest ih =>
    cases rest with
    | nil => simp [jsJoinSep_cons_vstr, jsJoinSep, joinComma, toJSString]
    | cons r t =>
      rw [List.map_cons, jsJoinSep_cons_vstr, ih]
      have hne : (List.map JSVal.vstr (r :: t)).isEmpty = false := by simp
      rw [hne]
      show s ++ ", " ++ joinComma (r :: t) = joinComma (s :: r :: t)
      rfl

/-- The route config of the specification example:
`config: {auth: {mode: 'optional', strategies: ['sessionTokenA', 'sessionTokenB']}}`. -/
def demoAuthConfig : JSVal :=
  mkObjNode
    [("auth", mkObjNode
      [("mode", mkLiteral (.vstr "optional")),
       ("strategies", mkArrayExpr
         [mkLiteral (.vstr "sessionTokenA"), mkLiteral (.vstr "sessionTokenB")])]
      demoLoc)]
    demoLoc

/-- Same config but with `mode: 'try'`. -/
def demoAuthConfigTry : JSVal :=
  mkObjNode
    [("auth", mkObjNode
      [("mode", mkLiteral (.vstr "try")),
       ("strategies", mkArrayExpr
         [mkLiteral (.vstr "sessionTokenA"), mkLiteral (.vstr "sessionTokenB")])]
      demoLoc)]
    demoLoc

/-- Same config but with no `mode` property. -/
def demoAuthConfigNoMode : JSVal :=
  mkObjNode
    [("auth", mkObjNode
      [("strategies", mkArrayExpr
         [mkLiteral (.vstr "sessionTokenA"), mkLiteral (.vstr "sessionTokenB")])]
      demoLoc)]
    demoLoc

/-- Claim C2: the authentication normalizer maps the example auth node
(`mode: 'optional'`, `strategies: ['sessionTokenA', 'sessionTokenB']`)
to `{optional: true, type: 'sessionToken'}`; a mode of `'try'` also
sets the optional flag and any other (or absent) mode leaves it unset;
a strategy name with lead `sessionToken` collapses to `sessionToken`,
one with lead `keyFetchToken` to `keyFetchToken`, and any other name
passes through; and the normalized names are deduplicated keeping first
occurrences in order, then joined with `", "`. -/
theorem C2_auth_normalizer :
    (findRouteAuthentication demoAuthConfig "routes.js"
        = .ok (.vobj [("optional", .vbool true), ("type", .vstr "sessionToken")]))
    ∧ (findRouteAuthentication demoAuthConfigTry "routes.js"
        = .ok (.vobj [("optional", .vbool true), ("type", .vstr "sessionToken")]))
    ∧ (findRouteAuthentication demoAuthConfigNoMode "routes.js"
        = .ok (.vobj [("optional", .vbool false), ("type", .vstr "sessionToken")]))
    ∧ (∀ v : JSVal, jsTestLead "sessionToken" v = true →
        marshallStrategy v = .vstr "sessionToken")
    ∧ (∀ v : JSVal, jsTestLead "sessionToken" v = false →
        jsTestLead "keyFetchToken" v = true → marshallStrategy v = .vstr "keyFetchToken")
    ∧ (∀ v : JSVal, jsTestLead "sessionToken" v = false →
        jsTestLead "keyFetchToken" v = false → marshallStrategy v = v)
    ∧ (∀ l : List String, jsDedupe (l.map .vstr) = (firstDedup l).map .vstr)
    ∧ (∀ l : List String, jsJoinSep ", " (l.map .vstr) = joinComma l) := by
  refine ⟨rfl, rfl, rfl, ?_, ?_, ?_, jsDedupe_eq_firstDedup, jsJoinSep_comma⟩
  · intro v h
    simp [marshallStrategy, h]
  · intro v h1 h2
    simp [marshallStrategy, h1, h2]
  · intro v h1 h2
    simp [marshallStrategy, h1, h2]

/-- Witness for C2: the hypotheses of the marshalling clauses hold at
concrete strategy names. -/
theorem C2_auth_normalizer_witness :
    marshallStrategy (.vstr "sessionToken_oldsync") = .vstr "sessionToken"
    ∧ marshallStrategy (.vstr "keyFetchTokenV2") = .vstr "keyFetchToken"
    ∧ marshallStrategy (.vstr "basicAuth") = .vstr "basicAuth" :=
  ⟨C2_auth_normalizer.2.2.2.1 _ (by decide),
   C2_auth_normalizer.2.2.2.2.1 _ (by decide) (by decide),
   C2_auth_normalizer.2.2.2.2.2.1 _ (by decide) (by decide)⟩

/-- A plausible route object node. -/
def demoRoute : JSVal :=
  mkObjNode
    [("method", mkLiteral (.vstr "GET")),
     ("path", mkLiteral (.vstr "/v0/status")),
     ("handler", mkFuncExpr)]
    demoLoc

/-- Claim C3 (code bug): a non-block exported function body — an arrow
function whose body is directly the route array literal — does NOT
extract: the `else` branch of `findReturnedData` asserts the type of
the still-undefined `returnedData` local, so it always throws
`Expected type [ReturnStatement], found nothing`, while the same array
behind an explicit `return` in a block body extracts fine. -/
theorem C3_expression_body_always_fails :
    findReturnedData (mkArrayExpr [demoRoute]) "routes.js"
      = .error (failErr "Expected type [ReturnStatement], found nothing" "routes.js" .vundefined)
    ∧ findReturnedData (mkBlock [mkReturnStmt (mkArrayExpr [demoRoute])]) "routes.js"
      = .ok (.varr [demoRoute]) :=
  ⟨rfl, rfl⟩

/-- Counterexample for C4: an object node whose property list contains
two properties named `foo`; `findProperty` does not raise an ambiguity
error — it silently returns the first match's value. -/
theorem C4_duplicate_counterexample :
    (find (.varr [mkProp "foo" (mkLiteral (.vnum 1)), mkProp "foo" (mkLiteral (.vnum 2))])
        (propertyCriteria "foo") ⟨true, false⟩).length = 2
    ∧ findProperty
        (mkObjNode [("foo", mkLiteral (.vnum 1)), ("foo", mkLiteral (.vnum 2))] demoLoc)
        "foo" LITERAL_TYPES "routes.js"
      = .ok (mkLiteral (.vnum 1)) :=
  ⟨rfl, rfl⟩

/-- Claim C4 as amended: on an object-shaped node the property
extractor returns the FIRST matching property's value (after asserting
its kind) even when several properties match — no ambiguity error —
and returns absent (`undefined`) without error when none matches. -/
theorem C4_property_extractor_first_match (props : List (String × JSVal)) (loc : JSVal)
    (k : String) (types : List String) (fp : String)
    (hk : ("Identifier" == k) = false)
    (hb : ∀ p ∈ props, jmatch p.2 (keyCriteria k) = false) :
    findProperty (mkObjNode props loc) k types fp
      = match (props.filter fun p => p.1 == k).head? with
        | none => .ok .vundefined
        | some p => assertType p.2 types fp >>= fun _ => pure p.2 :=
  findProperty_mkObj props loc k types fp hk hb

/-- Witness for the amended C4, at an input with a duplicated
property. -/
theorem C4_property_extractor_first_match_witness :
    findProperty
        (mkObjNode [("foo", mkLiteral (.vnum 1)), ("foo", mkLiteral (.vnum 2))] demoLoc)
        "foo" LITERAL_TYPES "routes.js"
      = .ok (mkLiteral (.vnum 1)) := by
  rw [C4_property_extractor_first_match
    [("foo", mkLiteral (.vnum 1)), ("foo", mkLiteral (.vnum 2))] demoLoc
    "foo" LITERAL_TYPES "routes.js" (by decide) (by decide)]
  rfl

/-- Claim C8 (code bug): `findRouteHandler` returns `undefined` both
when the handler is a bare identifier reference (as the claim states)
AND when it is an inline function literal — the `try` branch reads the
`value` attribute of the `FunctionExpression` node itself, which does
not exist, so a present handler is never produced. -/
theorem C8_handler_always_absent :
    findRouteHandler
        (mkObjNode [("method", mkLiteral (.vstr "GET")), ("handler", mkFuncExpr)] demoLoc)
        "routes.js" = .ok .vundefined
    ∧ findRouteHandler
        (mkObjNode [("method", mkLiteral (.vstr "GET")),
                    ("handler", mkIdent "accountStatus")] demoLoc)
        "routes.js" = .ok .vundefined :=
  ⟨rfl, rfl⟩

theorem jmatch_scalar_vs_obj (n : JSVal) (h : isObject n = false)
    (fs : List (String × JSVal)) : jmatch n (.vobj fs) = false := by
  rw [jmatch_eq]
  simp [h, scalarEq_obj_right]

theorem jmatch_mkReturnStmt_returnCriteria (arg : JSVal) :
    jmatch (mkReturnStmt arg) returnCriteria = true := by
  rw [jmatch_eq]
  simp [mkReturnStmt, returnCriteria, isObject, structVals, jmatch_vstr_crit, scalarEq]

theorem jmatch_mkVarDeclaration_vstr (ds : List JSVal) (s : String) :
    jmatch (mkVarDeclaration ds) (.vstr s) = false := by
  rw [jmatch_vstr_crit]
  simp [mkVarDeclaration, scalarEq]

theorem jmatch_mkVarDeclaration_returnCriteria (ds : List JSVal) :
    jmatch (mkVarDeclaration ds) returnCriteria = false := by
  rw [jmatch_eq]
  simp only [mkVarDeclaration, returnCriteria, demoLoc, mkLoc, isObject, structVals,
    List.map, Bool.not_true, Bool.false_eq_true, if_false, List.all_cons, List.all_nil,
    List.any_cons, List.any_nil, jmatch_vstr_crit, scalarEq]
  simp

theorem find_mkVarDeclaration_returnCriteria (ds : List JSVal) :
    find (mkVarDeclaration ds) returnCriteria ⟨true, false⟩ = [] := by
  rw [find_eq, jmatch_mkVarDeclaration_returnCriteria]
  simp [mkVarDeclaration, findF.isArr, isObject]

theorem find_mkReturnStmt_returnCriteria (arg : JSVal) :
    find (mkReturnStmt arg) returnCriteria ⟨true, false⟩ = [mkReturnStmt arg] := by
  rw [find_eq, jmatch_mkReturnStmt_returnCriteria]
  simp

theorem jmatch_stmtsarr_returnCriteria (stmts : List JSVal)
    (h : ∀ s ∈ stmts, jmatch s (.vstr "ReturnStatement") = false) :
    jmatch (.varr stmts) returnCriteria = false := by
  rw [jmatch_eq]
  simp only [isObject, returnCriteria, structVals, List.map, Bool.not_true,
    Bool.false_eq_true, if_false, List.all_cons, List.all_nil]
  have : (stmts.any fun nv => jmatch nv (.vstr "ReturnStatement")) = false := by
    rw [List.any_eq_false]
    intro x hx
    simp [h x hx]
  simp [this]

theorem jmatch_mkIdent_declCriteria (m n : String) :
    jmatch (mkIdent m) (declCriteria (.vstr n)) = false := by
  rw [jmatch_eq]
  simp only [mkIdent, declCriteria, demoLoc, mkLoc, isObject, structVals, List.map,
    Bool.not_true, Bool.false_eq_true, if_false, List.all_cons, List.all_nil,
    List.any_cons, List.any_nil, jmatch_vstr_crit, scalarEq]
  have h1 : jmatch (.vobj [("start", JSVal.vobj [("line", JSVal.vnum 1), ("column", JSVal.vnum 0)]),
      ("end", JSVal.vobj [("line", JSVal.vnum 1), ("column", JSVal.vnum 0)])])
      (.vobj [("type", JSVal.vstr "Identifier"), ("name", JSVal.vstr n)]) = false := by
    have := jmatch_mkLoc_keyCriteria 1 0 1 0 n
    simpa [mkLoc, keyCriteria] using this
  have hscal : ∀ s : String,
      jmatch (.vstr s) (.vobj [("type", JSVal.vstr "Identifier"), ("name", JSVal.vstr n)])
        = false := fun s => by
    have := jmatch_vstr_keyCriteria s n
    simpa [keyCriteria] using this
  simp [h1, hscal]

theorem jmatch_mkLoc_declCriteria (a b c d : Int) (n : String) :
    jmatch (mkLoc a b c d) (declCriteria (.vstr n)) = false := by
  rw [jmatch_eq]
  simp only [mkLoc, declCriteria, isObject, structVals, List.map, Bool.not_true,
    Bool.false_eq_true, if_false, List.all_cons, List.all_nil, List.any_cons,
    List.any_nil, jmatch_vstr_crit, scalarEq]
  simp

theorem jmatch_mkVarDeclarator_declCriteria (n : String) (init0 : JSVal) :
    jmatch (mkVarDeclarator n init0) (declCriteria (.vstr n)) = true := by
  rw [jmatch_eq]
  simp only [mkVarDeclarator, declCriteria, isObject, structVals, List.map,
    Bool.not_true, Bool.false_eq_true, if_false, List.all_cons, List.all_nil,
    List.any_cons, List.any_nil, jmatch_vstr_crit, scalarEq]
  have h1 : jmatch (mkIdent n)
      (.vobj [("type", JSVal.vstr "Identifier"), ("name", JSVal.vstr n)]) = true := by
    have := jmatch_mkIdent_keyCriteria n n
    simp [keyCriteria] at this
    simp [this]
  simp [h1]

theorem jmatch_mkReturnStmt_declCriteria (arg : JSVal) (n : String)
    (harg : jmatch arg (.vstr "VariableDeclarator") = false) :
    jmatch (mkReturnStmt arg) (declCriteria (.vstr n)) = false := by
  rw [jmatch_eq]
  simp only [mkReturnStmt, declCriteria, demoLoc, mkLoc, isObject, structVals, List.map,
    Bool.not_true, Bool.false_eq_true, if_false, List.all_cons, List.all_nil,
    List.any_cons, List.any_nil, jmatch_vstr_crit, scalarEq, harg]
  simp

theorem jmatch_mkVarDeclaration_declCriteria (ds : List JSVal) (n : String) :
    jmatch (mkVarDeclaration ds) (declCriteria (.vstr n)) = false := by
  rw [jmatch_eq]
  simp only [mkVarDeclaration, declCriteria, demoLoc, mkLoc, isObject, structVals,
    List.map, Bool.not_true, Bool.false_eq_true, if_false, List.all_cons, List.all_nil,
    List.any_cons, List.any_nil, jmatch_vstr_crit, scalarEq]
  simp

theorem jmatch_mkBlock_declCriteria (stmts : List JSVal) (n : String) :
    jmatch (mkBlock stmts) (declCriteria (.vstr n)) = false := by
  rw [jmatch_eq]
  simp only [mkBlock, declCriteria, demoLoc, mkLoc, isObject, structVals, List.map,
    Bool.not_true, Bool.false_eq_true, if_false, List.all_cons, List.all_nil,
    List.any_cons, List.any_nil, jmatch_vstr_crit, scalarEq]
  simp

theorem find_vnum_empty (m : Int) (c : JSVal) (o : FindOptions)
    (h : jmatch (.vnum m) c = false) : find (.vnum m) c o = [] := by
  rw [find_eq, h]
  simp [findF.isArr, isObject]

theorem find_vstr_empty (s : String) (c : JSVal) (o : FindOptions)
    (h : jmatch (.vstr s) c = false) : find (.vstr s) c o = [] := by
  rw [find_eq, h]
  simp [findF.isArr, isObject]

theorem find_mkLoc_declCriteria (a b c d : Int) (n : String) :
    find (mkLoc a b c d) (declCriteria (.vstr n)) ⟨false, true⟩ = [] := by
  have hnum : ∀ m : Int, find (.vnum m) (declCriteria (.vstr n)) ⟨false, true⟩ = [] := by
    intro m
    apply find_vnum_empty
    rw [jmatch_eq]
    simp [isObject, declCriteria, scalarEq]
  have hstart : ∀ x y : Int,
      find (.vobj [("line", JSVal.vnum x), ("column", JSVal.vnum y)])
        (declCriteria (.vstr n)) ⟨false, true⟩ = [] := by
    intro x y
    rw [find_eq]
    have hm : jmatch (.vobj [("line", JSVal.vnum x), ("column", JSVal.vnum y)])
        (declCriteria (.vstr n)) = false := by
      rw [jmatch_eq]
      simp only [declCriteria, isObject, structVals, List.map, Bool.not_true,
        Bool.false_eq_true, if_false, List.all_cons, List.all_nil, List.any_cons,
        List.any_nil, jmatch_vstr_crit, scalarEq]
      simp
    rw [hm]
    simp only [Bool.false_eq_true, if_false, findF.isArr, Bool.false_and, isObject,
      Bool.true_and, if_true, structVals, List.map]
    simp [List.foldl_cons, hnum]
  rw [find_eq, jmatch_mkLoc_declCriteria]
  simp only [Bool.false_eq_true, if_false, findF.isArr, Bool.false_and, isObject,
    Bool.true_and, if_true, mkLoc, structVals, List.map]
  simp [List.foldl_cons, hstart]

theorem find_vstr_declCriteria (s n : String) :
    find (.vstr s) (declCriteria (.vstr n)) ⟨false, true⟩ = [] := by
  apply find_vstr_empty
  rw [jmatch_eq]
  simp [isObject, declCriteria, scalarEq]

theorem find_demoLoc_declCriteria (n : String) :
    find demoLoc (declCriteria (.vstr n)) ⟨false, true⟩ = [] := by
  have := find_mkLoc_declCriteria 1 0 1 0 n
  simpa [demoLoc] using this

theorem find_mkIdent_declCriteria (m n : String) :
    find (mkIdent m) (declCriteria (.vstr n)) ⟨false, true⟩ = [] := by
  rw [find_eq, jmatch_mkIdent_declCriteria]
  simp only [Bool.false_eq_true, if_false, mkIdent, findF.isArr, Bool.false_and,
    isObject, Bool.true_and, if_true, structVals, List.map]
  simp [List.foldl_cons, find_vstr_declCriteria, find_demoLoc_declCriteria]

theorem jmatch_mkReturnStmt_vstr (arg : JSVal) (s : String) :
    jmatch (mkReturnStmt arg) (.vstr s) = false := by
  rw [jmatch_vstr_crit]
  simp [mkReturnStmt, scalarEq]

theorem jmatch_mkVarDeclarator_vstr (m : String) (init0 : JSVal) (s : String) :
    jmatch (mkVarDeclarator m init0) (.vstr s) = false := by
  rw [jmatch_vstr_crit]
  simp [mkVarDeclarator, scalarEq]

theorem find_mkVarDeclarator_declCriteria (n : String) (init0 : JSVal) :
    find (mkVarDeclarator n init0) (declCriteria (.vstr n)) ⟨false, true⟩
      = [mkVarDeclarator n init0] := by
  rw [find_eq, jmatch_mkVarDeclarator_declCriteria]
  simp

theorem find_declsArr_declCriteria (n : String) (init0 : JSVal) :
    find (.varr [mkVarDeclarator n init0]) (declCriteria (.vstr n)) ⟨false, true⟩
      = [mkVarDeclarator n init0] := by
  have hm : jmatch (.varr [mkVarDeclarator n init0]) (declCriteria (.vstr n)) = false := by
    rw [jmatch_eq]
    simp only [isObject, declCriteria, structVals, List.map, Bool.not_true,
      Bool.false_eq_true, if_false, List.all_cons, List.all_nil, List.any_cons,
      List.any_nil, jmatch_mkVarDeclarator_vstr]
    simp
  rw [find_eq, hm]
  simp only [Bool.false_eq_true, if_false, findF.isArr, Bool.false_and, isObject,
    Bool.true_and, if_true, structVals]
  simp [List.foldl_cons, find_mkVarDeclarator_declCriteria]

theorem find_declStmt_declCriteria (n : String) (init0 : JSVal) :
    find (mkVarDeclaration [mkVarDeclarator n init0]) (declCriteria (.vstr n)) ⟨false, true⟩
      = [mkVarDeclarator n init0] := by
  rw [find_eq, jmatch_mkVarDeclaration_declCriteria]
  simp only [Bool.false_eq_true, if_false, mkVarDeclaration, findF.isArr, Bool.false_and,
    isObject, Bool.true_and, if_true, structVals, List.map]
  simp [List.foldl_cons, find_vstr_declCriteria, find_demoLoc_declCriteria,
    find_declsArr_declCriteria]

theorem find_retStmt_declCriteria (n : String) :
    find (mkReturnStmt (mkIdent n)) (declCriteria (.vstr n)) ⟨false, true⟩ = [] := by
  have hm : jmatch (mkReturnStmt (mkIdent n)) (declCriteria (.vstr n)) = false := by
    apply jmatch_mkReturnStmt_declCriteria
    rw [jmatch_vstr_crit]
    simp [mkIdent, scalarEq]
  rw [find_eq, hm]
  simp only [Bool.false_eq_true, if_false, mkReturnStmt, findF.isArr, Bool.false_and,
    isObject, Bool.true_and, if_true, structVals, List.map]
  simp [List.foldl_cons, find_vstr_declCriteria, find_demoLoc_declCriteria,
    find_mkIdent_declCriteria]

theorem find_block_declCriteria (n : String) (elems : List JSVal) :
    find (mkBlock [mkVarDeclaration [mkVarDeclarator n (mkArrayExpr elems)],
                   mkReturnStmt (mkIdent n)])
      (declCriteria (.vstr n)) ⟨false, true⟩
      = [mkVarDeclarator n (mkArrayExpr elems)] := by
  have hstmts : find (.varr [mkVarDeclaration [mkVarDeclarator n (mkArrayExpr elems)],
      mkReturnStmt (mkIdent n)]) (declCriteria (.vstr n)) ⟨false, true⟩
      = [mkVarDeclarator n (mkArrayExpr elems)] := by
    have hm : jmatch (.varr [mkVarDeclaration [mkVarDeclarator n (mkArrayExpr elems)],
        mkReturnStmt (mkIdent n)]) (declCriteria (.vstr n)) = false := by
      rw [jmatch_eq]
      simp only [isObject, declCriteria, structVals, List.map, Bool.not_true,
        Bool.false_eq_true, if_false, List.all_cons, List.all_nil, List.any_cons,
        List.any_nil, jmatch_mkVarDeclaration_vstr, jmatch_mkReturnStmt_vstr]
      simp
    rw [find_eq, hm]
    simp only [Bool.false_eq_true, if_false, findF.isArr, Bool.false_and, isObject,
      Bool.true_and, if_true, structVals]
    simp [List.foldl_cons, find_declStmt_declCriteria, find_retStmt_declCriteria]
  rw [find_eq, jmatch_mkBlock_declCriteria]
  simp only [Bool.false_eq_true, if_false, mkBlock, findF.isArr, Bool.false_and,
    isObject, Bool.true_and, if_true, structVals, List.map]
  simp [List.foldl_cons, find_vstr_declCriteria, find_demoLoc_declCriteria, hstmts]
theorem findReturnedData_inline (elems : List JSVal) (fp : String) :
    findReturnedData (mkBlock [mkReturnStmt (mkArrayExpr elems)]) fp = .ok (.varr elems) := by
  have htype : getFieldE (mkBlock [mkReturnStmt (mkArrayExpr elems)]) "type"
      = .ok (.vstr "BlockStatement") := by simp [mkBlock, getFieldE, List.lookup]
  have hbody : getFieldE (mkBlock [mkReturnStmt (mkArrayExpr elems)]) "body"
      = .ok (.varr [mkReturnStmt (mkArrayExpr elems)]) := by
    simp [mkBlock, getFieldE, List.lookup]
  have hfind : find (.varr [mkReturnStmt (mkArrayExpr elems)]) returnCriteria ⟨true, false⟩
      = [mkReturnStmt (mkArrayExpr elems)] := by
    have hm : jmatch (.varr [mkReturnStmt (mkArrayExpr elems)]) returnCriteria = false := by
      apply jmatch_stmtsarr_returnCriteria
      intro s hs
      simp at hs
      subst hs
      exact jmatch_mkReturnStmt_vstr _ _
    rw [find_eq, hm]
    simp only [Bool.false_eq_true, if_false, findF.isArr, Bool.true_and, if_true,
      findF.elemsOf]
    simp [List.foldl_cons, find_mkReturnStmt_returnCriteria]
  have harg : getFieldE (mkReturnStmt (mkArrayExpr elems)) "argument"
      = .ok (mkArrayExpr elems) := by simp [mkReturnStmt, getFieldE, List.lookup]
  have hrt : getFieldE (mkArrayExpr elems) "type" = .ok (.vstr "ArrayExpression") := by
    simp [mkArrayExpr, getFieldE, List.lookup]
  have hassert : assertType (mkArrayExpr elems) ARRAY_TYPES fp = .ok () := by
    simp [assertType, mkArrayExpr, truthy, getFieldE, List.lookup, typeSetHas, ARRAY_TYPES]
  have helems : getFieldE (mkArrayExpr elems) "elements" = .ok (.varr elems) := by
    simp [mkArrayExpr, getFieldE, List.lookup]
  unfold findReturnedData
  rw [htype]
  simp only [except_ok_bind]
  simp only [scalarEq, beq_self_eq_true, if_true]
  rw [hbody]
  simp only [except_ok_bind]
  rw [hfind]
  simp only [List.length_cons, List.length_nil, List.headD_cons]
  simp only [ne_eq, not_true_eq_false, if_false, ite_false]
  rw [harg]
  simp only [except_ok_bind]
  rw [hrt]
  simp only [except_ok_bind]
  have hne : (("ArrayExpression" == "Identifier") = true) = False := by simp
  simp only [scalarEq, hne, if_false]
  simp only [except_pure_eq_ok, except_ok_bind]
  rw [hassert]
  simp only [except_ok_bind]
  rw [helems]

theorem findReturnedData_binding (elems : List JSVal) (n : String) (fp : String) :
    findReturnedData
      (mkBlock [mkVarDeclaration [mkVarDeclarator n (mkArrayExpr elems)],
                mkReturnStmt (mkIdent n)]) fp
      = .ok (.varr elems) := by
  set declStmt := mkVarDeclaration [mkVarDeclarator n (mkArrayExpr elems)] with hdecl
  set retStmt := mkReturnStmt (mkIdent n) with hret
  have htype : getFieldE (mkBlock [declStmt, retStmt]) "type"
      = .ok (.vstr "BlockStatement") := by simp [mkBlock, getFieldE, List.lookup]
  have hbody : getFieldE (mkBlock [declStmt, retStmt]) "body"
      = .ok (.varr [declStmt, retStmt]) := by
    simp [mkBlock, getFieldE, List.lookup]
  have hfind : find (.varr [declStmt, retStmt]) returnCriteria ⟨true, false⟩
      = [retStmt] := by
    have hm : jmatch (.varr [declStmt, retStmt]) returnCriteria = false := by
      apply jmatch_stmtsarr_returnCriteria
      intro s hs
      simp at hs
      rcases hs with rfl | rfl
      · exact jmatch_mkVarDeclaration_vstr _ _
      · exact jmatch_mkReturnStmt_vstr _ _
    rw [find_eq, hm]
    simp only [Bool.false_eq_true, if_false, findF.isArr, Bool.true_and, if_true,
      findF.elemsOf]
    rw [hdecl, hret]
    simp [List.foldl_cons, find_mkVarDeclaration_returnCriteria,
      find_mkReturnStmt_returnCriteria]
  have harg : getFieldE retStmt "argument" = .ok (mkIdent n) := by
    rw [hret]; simp [mkReturnStmt, getFieldE, List.lookup]
  have hrt : getFieldE (mkIdent n) "type" = .ok (.vstr "Identifier") := by
    simp [mkIdent, getFieldE, List.lookup]
  have hname : getFieldE (mkIdent n) "name" = .ok (.vstr n) := by
    simp [mkIdent, getFieldE, List.lookup]
  have hdefs : find (mkBlock [declStmt, retStmt]) (declCriteria (.vstr n)) ⟨false, true⟩
      = [mkVarDeclarator n (mkArrayExpr elems)] := by
    rw [hdecl, hret]
    exact find_block_declCriteria n elems
  have hinit : getFieldE (mkVarDeclarator n (mkArrayExpr elems)) "init"
      = .ok (mkArrayExpr elems) := by
    simp [mkVarDeclarator, getFieldE, List.lookup]
  have hassert : assertType (mkArrayExpr elems) ARRAY_TYPES fp = .ok () := by
    simp [assertType, mkArrayExpr, truthy, getFieldE, List.lookup, typeSetHas, ARRAY_TYPES]
  have helems : getFieldE (mkArrayExpr elems) "elements" = .ok (.varr elems) := by
    simp [mkArrayExpr, getFieldE, List.lookup]
  unfold findReturnedData
  rw [htype]
  simp only [except_ok_bind]
  simp only [scalarEq, beq_self_eq_true, if_true]
  rw [hbody]
  simp only [except_ok_bind]
  rw [hfind]
  simp only [List.length_cons, List.length_nil, List.headD_cons]
  simp only [ne_eq, not_true_eq_false, if_false, ite_false]
  rw [harg]
  simp only [except_ok_bind]
  rw [hrt]
  simp only [except_ok_bind]
  simp only [scalarEq, beq_self_eq_true, if_true]
  rw [hname]
  simp only [except_ok_bind]
  rw [hdefs]
  simp only [List.length_cons, List.length_nil, List.headD_cons]
  simp only [ne_eq, not_true_eq_false, if_false, ite_false]
  rw [hinit]
  simp only [except_pure_eq_ok, except_ok_bind]
  rw [hassert]
  simp only [except_ok_bind]
  rw [helems]


/-- Claim C5: a function body that binds the route array to a single
local variable and returns it by name (`const routes = [...]; return
routes`) extracts exactly the same route data as the same array written
inline in the return statement — and both yield the array elements. -/
theorem C5_named_binding_equivalent (elems : List JSVal) (n : String) (fp : String) :
    findReturnedData
        (mkBlock [mkVarDeclaration [mkVarDeclarator n (mkArrayExpr elems)],
                  mkReturnStmt (mkIdent n)]) fp
      = findReturnedData (mkBlock [mkReturnStmt (mkArrayExpr elems)]) fp
    ∧ findReturnedData (mkBlock [mkReturnStmt (mkArrayExpr elems)]) fp
      = .ok (.varr elems) := by
  constructor
  · rw [findReturnedData_binding, findReturnedData_inline]
  · exact findReturnedData_inline elems fp
/-- An auth object node whose properties all have `Literal` values,
with its source position starting at the given line. -/
def mkAuthObj (props : List (String × JSVal)) (line : Int) : JSVal :=
  mkObjNode (props.map fun p => (p.1, mkLiteral p.2)) (mkLoc line 0 line 0)

theorem jmatch_mkObjNode_keyCriteria (ps : List (String × JSVal)) (a b c d : Int)
    (k : String) :
    jmatch (mkObjNode ps (mkLoc a b c d)) (keyCriteria k) = false := by
  rw [jmatch_eq]
  simp only [mkObjNode, keyCriteria, mkLoc, isObject, structVals, List.map,
    Bool.not_true, Bool.false_eq_true, if_false, List.all_cons, List.all_nil,
    List.any_cons, List.any_nil, jmatch_vstr_crit, scalarEq]
  simp

theorem benign_mkLiteral (v : JSVal) (k : String)
    (h1 : ("Literal" == k) = false) (h2 : ("Identifier" == k) = false) :
    jmatch (mkLiteral v) (keyCriteria k) = false := by
  rw [jmatch_mkLiteral_keyCriteria, h1]
  simp only [Bool.false_or]
  cases v with
  | vstr s =>
    by_cases hs : s = "Identifier"
    · subst hs
      have : scalarEq (.vstr "Identifier") (.vstr k) = false := by
        simp only [scalarEq]
        exact h2
      rw [this]
      simp
    · have : scalarEq (.vstr s) (.vstr "Identifier") = false := by
        simp [scalarEq, hs]
      rw [this]
      simp
  | vundefined => simp [scalarEq]
  | vnull => simp [scalarEq]
  | vbool b => simp [scalarEq]
  | vnum m => simp [scalarEq]
  | varr es => simp [scalarEq]
  | vobj fs => simp [scalarEq]

theorem findProperty_mkAuthObj (props : List (String × JSVal)) (line : Int)
    (k : String) (types : List String) (fp : String)
    (hk1 : ("Identifier" == k) = false) (hk2 : ("Literal" == k) = false) :
    findProperty (mkAuthObj props line) k types fp
      = match (props.filter fun p => p.1 == k).head? with
        | none => .ok .vundefined
        | some p => assertType (mkLiteral p.2) types fp >>= fun _ => pure (mkLiteral p.2) := by
  unfold mkAuthObj
  rw [findProperty_mkObj _ _ _ _ _ hk1 (by
    intro q hq
    rw [List.mem_map] at hq
    obtain ⟨p, _, rfl⟩ := hq
    exact benign_mkLiteral p.2 k hk2 hk1)]
  rw [List.filter_map, List.head?_map]
  have hcomp : ((fun q : String × JSVal => q.1 == k)
      ∘ fun p : String × JSVal => (p.1, mkLiteral p.2)) = fun p => p.1 == k := rfl
  rw [hcomp]
  cases (props.filter fun p => p.1 == k).head? with
  | none => rfl
  | some p => rfl

/-- Claim C6: an auth object node containing neither a `strategies`
property nor a singular `strategy` property makes extraction fail with
the fatal "Missing authentication strategy" diagnostic, carrying the
auth node's start line — it is never treated as absent
authentication. -/
theorem C6_missing_strategy (props : List (String × JSVal)) (line : Int) (fp : String)
    (h : ∀ p ∈ props, p.1 ≠ "strategies" ∧ p.1 ≠ "strategy") :
    findRouteAuthentication (mkObjNode [("auth", mkAuthObj props line)] demoLoc) fp
      = .error (failErr "Missing authentication strategy" fp (.vnum line)) := by
  have hassertAuth : assertType (mkAuthObj props line) OBJECT_TYPES fp = .ok () := by
    simp [assertType, mkAuthObj, mkObjNode, truthy, getFieldE, List.lookup, typeSetHas,
      OBJECT_TYPES]
  have hauth : findProperty (mkObjNode [("auth", mkAuthObj props line)] demoLoc) "auth"
      OBJECT_TYPES fp = .ok (mkAuthObj props line) := by
    rw [findProperty_mkObj _ _ _ _ _ (by decide) (by
      intro q hq
      simp only [List.mem_singleton] at hq
      subst hq
      show jmatch (mkAuthObj props line) (keyCriteria "auth") = false
      unfold mkAuthObj
      exact jmatch_mkObjNode_keyCriteria _ _ _ _ _ _)]
    simp only [List.filter_cons, List.filter_nil]
    norm_num
    rw [hassertAuth]
    rfl
  have htr : truthy (mkAuthObj props line) = true := by
    simp [mkAuthObj, mkObjNode, truthy]
  have hstrats : (props.filter fun p => p.1 == "strategies") = [] := by
    rw [List.filter_eq_nil_iff]
    intro p hp
    simp [(h p hp).1]
  have hstrat : (props.filter fun p => p.1 == "strategy") = [] := by
    rw [List.filter_eq_nil_iff]
    intro p hp
    simp [(h p hp).2]
  have hfps : findProperty (mkAuthObj props line) "strategies" ARRAY_TYPES fp
      = .ok .vundefined := by
    rw [findProperty_mkAuthObj _ _ _ _ _ (by decide) (by decide), hstrats]
    rfl
  have hfp1 : findProperty (mkAuthObj props line) "strategy" LITERAL_TYPES fp
      = .ok .vundefined := by
    rw [findProperty_mkAuthObj _ _ _ _ _ (by decide) (by decide), hstrat]
    rfl
  have hloc : getFieldE (mkAuthObj props line) "loc" = .ok (mkLoc line 0 line 0) := by
    simp [mkAuthObj, mkObjNode, getFieldE, List.lookup]
  have hstart : getFieldE (mkLoc line 0 line 0) "start"
      = .ok (.vobj [("line", .vnum line), ("column", .vnum 0)]) := by
    simp [mkLoc, getFieldE, List.lookup]
  have hline : getFieldE (.vobj [("line", JSVal.vnum line), ("column", JSVal.vnum 0)]) "line"
      = .ok (.vnum line) := by
    simp [getFieldE, List.lookup]
  unfold findRouteAuthentication
  rw [hauth]
  simp only [except_ok_bind, htr, if_true]
  rw [findProperty_mkAuthObj _ _ _ _ _ (by decide) (by decide)]
  cases hmode : (props.filter fun p => p.1 == "mode").head? with
  | none =>
    simp only [except_ok_bind, truthy, Bool.false_eq_true, if_false, except_pure_eq_ok]
    rw [hfps]
    simp only [except_ok_bind, truthy, Bool.false_eq_true, if_false]
    rw [hfp1]
    simp only [except_ok_bind, truthy, Bool.false_eq_true, if_false, except_pure_eq_ok,
      Bool.not_false, if_true]
    rw [hloc]
    simp only [except_ok_bind]
    rw [hstart]
    simp only [except_ok_bind]
    rw [hline]
    simp only [except_ok_bind, except_throw_eq_error, except_error_bind]
  | some p =>
    have hassertLit : assertType (mkLiteral p.2) LITERAL_TYPES fp = .ok () := by
      simp [assertType, mkLiteral, truthy, getFieldE, List.lookup, typeSetHas,
        LITERAL_TYPES]
    have htrLit : truthy (mkLiteral p.2) = true := by simp [mkLiteral, truthy]
    simp only [hassertLit, except_ok_bind, except_pure_eq_ok, htrLit, if_true]
    have hval : getFieldE (mkLiteral p.2) "value" = .ok p.2 := by
      simp [mkLiteral, getFieldE, List.lookup]
    rw [hval]
    simp only [except_ok_bind, except_pure_eq_ok]
    rw [hfps]
    simp only [except_ok_bind, truthy, Bool.false_eq_true, if_false]
    rw [hfp1]
    simp only [except_ok_bind, truthy, Bool.false_eq_true, if_false, except_pure_eq_ok,
      Bool.not_false, if_true]
    rw [hloc]
    simp only [except_ok_bind]
    rw [hstart]
    simp only [except_ok_bind]
    rw [hline]
    simp only [except_ok_bind, except_throw_eq_error, except_error_bind]


/-- Witness for C6: an auth node carrying only `mode: 'optional'`,
positioned at line 7. -/
theorem C6_missing_strategy_witness :
    findRouteAuthentication
        (mkObjNode [("auth", mkAuthObj [("mode", .vstr "optional")] 7)] demoLoc) "routes.js"
      = .error (failErr "Missing authentication strategy" "routes.js" (.vnum 7)) :=
  C6_missing_strategy [("mode", .vstr "optional")] 7 "routes.js" (by decide)

/-- Claim C10: a route object node with no `handler` property at all
does not yield a descriptor with an absent handler.  The `try` branch
dereferences `.value` on the `undefined` returned by `findProperty`,
the `catch` branch dereferences `.name` on `undefined` again, and that
second native TypeError is not caught — the run aborts with an
unstructured runtime error, not a diagnostic.  (The hypothesis says no
property is named `handler` and no property value itself matches the
handler key criteria.) -/
theorem C10_missing_handler_native_error (props : List (String × JSVal)) (fp : String)
    (h : ∀ p ∈ props, p.1 ≠ "handler" ∧ jmatch p.2 (keyCriteria "handler") = false) :
    findRouteHandler (mkObjNode props demoLoc) fp
      = .error (.native "Cannot read property 'name' of undefined") := by
  have hnil : (props.filter fun p => p.1 == "handler") = [] := by
    rw [List.filter_eq_nil_iff]
    intro p hp
    simp [(h p hp).1]
  have hfpF : findProperty (mkObjNode props demoLoc) "handler" FUNCTION_EXPRESSION_TYPES fp
      = .ok .vundefined := by
    rw [findProperty_mkObj _ _ _ _ _ (by decide) (fun p hp => (h p hp).2), hnil]
    rfl
  have hfpI : findProperty (mkObjNode props demoLoc) "handler" IDENTIFIER_TYPES fp
      = .ok .vundefined := by
    rw [findProperty_mkObj _ _ _ _ _ (by decide) (fun p hp => (h p hp).2), hnil]
    rfl
  unfold findRouteHandler
  rw [hfpF]
  simp only [except_ok_bind, getFieldE]
  rw [hfpI]
  simp only [except_ok_bind, getFieldE, except_error_bind]
  rfl

/-- Witness for C10: a route with `method`, `path` and `config`
properties but no `handler`. -/
theorem C10_missing_handler_native_error_witness :
    findRouteHandler
        (mkObjNode [("method", mkLiteral (.vstr "GET")),
                    ("path", mkLiteral (.vstr "/v0/status")),
                    ("config", mkObjNode [] demoLoc)] demoLoc) "routes.js"
      = .error (.native "Cannot read property 'name' of undefined") :=
  C10_missing_handler_native_error
    [("method", mkLiteral (.vstr "GET")),
     ("path", mkLiteral (.vstr "/v0/status")),
     ("config", mkObjNode [] demoLoc)] "routes.js" (by decide)

/-- `Object.keys(v).map(k => v[k])` in the exception-aware model:
`Object.keys` throws a native TypeError on `undefined`/`null` (and, in
the ES5 runtime the script targets, on any primitive); on structural
values it returns the attribute values.  The script only reaches the
structural case thanks to its `isObject` / `Array.isArray` guards,
which is what claim C9 is about. -/
def jsValuesE (v : JSVal) : Except JSError (List JSVal) :=
  match v with
  | .vundefined => .error (.native "Cannot convert undefined to object")
  | .vnull => .error (.native "Cannot convert null to object")
  | .varr es => .ok es
  | .vobj fs => .ok (fs.map Prod.snd)
  | _ => .error (.native "Object.keys called on non-object")

/-- `Array.prototype.every` with an effectful predicate (stops at the
first falsy result; a thrown error propagates). -/
def jsEveryM : List JSVal → (JSVal → Except JSError Bool) → Except JSError Bool
  | [], _ => .ok true
  | x :: xs, f => do
    let b ← f x
    if b then jsEveryM xs f else .ok false

/-- `Array.prototype.some` with an effectful predicate. -/
def jsSomeM : List JSVal → (JSVal → Except JSError Bool) → Except JSError Bool
  | [], _ => .ok false
  | x :: xs, f => do
    let b ← f x
    if b then .ok true else jsSomeM xs f

/-- `reduce`/`concat` with an effectful body (as `find` uses it). -/
def jsConcatMapM : List JSVal → (JSVal → Except JSError (List JSVal)) →
    Except JSError (List JSVal)
  | [], _ => .ok []
  | x :: xs, f => do
    let r ← f x
    let rest ← jsConcatMapM xs f
    return r ++ rest

/-- The script's `match` with every JavaScript operation that can throw
modelled in the `Except` monad. -/
def jmatchEF : Nat → JSVal → JSVal → Except JSError Bool
  | 0, _, _ => .ok false
  | fuel + 1, node, criteria =>
    if ! isObject node then .ok (scalarEq node criteria)
    else if ! isObject criteria then .ok false
    else do
      let cvs ← jsValuesE criteria
      jsEveryM cvs fun cv => do
        let nvs ← jsValuesE node
        jsSomeM nvs fun nv => jmatchEF fuel nv cv

/-- `match(node, criteria)` in the exception-aware model. -/
def jmatchE (node criteria : JSVal) : Except JSError Bool :=
  jmatchEF (jsize criteria) node criteria

/-- `find(node, criteria, options)` in the exception-aware model. -/
def findEF : Nat → JSVal → JSVal → FindOptions → Except JSError (List JSVal)
  | 0, _, _, _ => .ok []
  | fuel + 1, node, criteria, options => do
    let m ← jmatchE node criteria
    if m then .ok [node]
    else if findF.isArr node && options.array then
      jsConcatMapM (findF.elemsOf node) fun e => findEF fuel e criteria options
    else if isObject node && options.recursive then do
      let vs ← jsValuesE node
      jsConcatMapM vs fun v => findEF fuel v criteria options
    else .ok []

/-- `find` in the exception-aware model. -/
def findE (node criteria : JSVal) (options : FindOptions) : Except JSError (List JSVal) :=
  findEF (jsize node) node criteria options

theorem jsValuesE_ok (v : JSVal) (h : isObject v = true) :
    jsValuesE v = .ok (structVals v) := by
  cases v <;> simp_all [isObject, jsValuesE, structVals]

theorem jsEveryM_ok (l : List JSVal) (f : JSVal → Except JSError Bool) (g : JSVal → Bool)
    (h : ∀ x ∈ l, f x = .ok (g x)) : jsEveryM l f = .ok (l.all g) := by
  induction l with
  | nil => rfl
  | cons x xs ih =>
    simp only [jsEveryM, h x (by simp), except_ok_bind, List.all_cons]
    cases hx : g x
    · simp
    · simp only [if_true]
      rw [ih (fun y hy => h y (by simp [hy]))]
      simp

theorem jsSomeM_ok (l : List JSVal) (f : JSVal → Except JSError Bool) (g : JSVal → Bool)
    (h : ∀ x ∈ l, f x = .ok (g x)) : jsSomeM l f = .ok (l.any g) := by
  induction l with
  | nil => rfl
  | cons x xs ih =>
    simp only [jsSomeM, h x (by simp), except_ok_bind, List.any_cons]
    cases hx : g x
    · simp only [hx, Bool.false_eq_true, if_false]
      rw [ih (fun y hy => h y (by simp [hy]))]
      simp
    · simp

theorem jsConcatMapM_ok (l : List JSVal) (f : JSVal → Except JSError (List JSVal))
    (g : JSVal → List JSVal) (h : ∀ x ∈ l, f x = .ok (g x)) :
    jsConcatMapM l f = .ok (l.flatMap g) := by
  induction l with
  | nil => rfl
  | cons x xs ih =>
    simp only [jsConcatMapM, h x (by simp), except_ok_bind]
    rw [ih (fun y hy => h y (by simp [hy]))]
    simp

theorem jmatchEF_ok : ∀ fuel : Nat, ∀ n c : JSVal,
    jmatchEF fuel n c = .ok (jmatchF fuel n c) := by
  intro fuel
  induction fuel with
  | zero => intro n c; rfl
  | succ fuel ih =>
    intro n c
    simp only [jmatchEF, jmatchF]
    by_cases hn : isObject n
    · by_cases hc : isObject c
      · simp only [hn, hc, Bool.not_true, Bool.false_eq_true, if_false,
          jsValuesE_ok c hc, except_ok_bind]
        rw [jsEveryM_ok _ _ (fun cv => (structVals n).any fun nv => jmatchF fuel nv cv)]
        intro cv _
        simp only [jsValuesE_ok n hn, except_ok_bind]
        exact jsSomeM_ok _ _ _ (fun nv _ => ih nv cv)
      · simp [hn, hc]
    · simp [hn]

theorem jmatchE_ok (n c : JSVal) : jmatchE n c = .ok (jmatch n c) :=
  jmatchEF_ok (jsize c) n c

theorem findEF_ok : ∀ fuel : Nat, ∀ n c : JSVal, ∀ o : FindOptions,
    findEF fuel n c o = .ok (findF fuel n c o) := by
  intro fuel
  induction fuel with
  | zero => intro n c o; rfl
  | succ fuel ih =>
    intro n c o
    simp only [findEF, findF, jmatchE_ok, except_ok_bind]
    cases hm : jmatch n c
    · simp only [Bool.false_eq_true, if_false]
      by_cases ha : findF.isArr n && o.array
      · simp only [ha, if_true]
        rw [jsConcatMapM_ok _ _ (fun e => findF fuel e c o) (fun e _ => ih e c o)]
        rw [foldl_append_eq_flatMap]
        simp
      · simp only [ha, Bool.false_eq_true, if_false]
        by_cases hr : isObject n && o.recursive
        · simp only [hr, if_true]
          have hn : isObject n = true := by
            cases hno : isObject n
            · simp [hno] at hr
            · rfl
          simp only [jsValuesE_ok n hn, except_ok_bind]
          rw [jsConcatMapM_ok _ _ (fun v => findF fuel v c o) (fun v _ => ih v c o)]
          rw [foldl_append_eq_flatMap]
          simp
        · simp [hr]
    · simp

/-- Claim C9: for every node, criteria and option combination, `find`
and `match` terminate normally and never throw — the exception-aware
models `findE`/`jmatchE` always return `ok` of the pure results
(`jmatch`/`find` themselves are total Lean functions); a failed match
is `false` and an unsuccessful search is `[]`, never an error. -/
theorem C9_find_match_total (n c : JSVal) (o : FindOptions) :
    jmatchE n c = .ok (jmatch n c) ∧ findE n c o = .ok (find n c o) :=
  ⟨jmatchE_ok n c, findEF_ok (jsize n) n c o⟩
